import Mathlib

/-!
Verification development for the record validator (data-validator source).

The program validates a list of personal records (dicts decoded from JSON),
flagging structurally invalid records and content duplicates.  Duplicate
detection keys a registry by the Python string serialization of the record
with its id field removed.  This file embeds the data model, the string
serialization, and every operation of the DataValidator class, and proves the
specification claims about them.
-/

/-- Scalar values a record field can hold after JSON decoding: a string, an
integer, or the null sentinel (Python None). -/
inductive Value where
  | str (s : String)
  | num (n : Int)
  | null
deriving DecidableEq

/-- A record is a Python dict decoded from JSON: an insertion-ordered
association list from field names to values. -/
abbrev Record := List (String × Value)

/-- Hexadecimal digit character as used in repr escape sequences. -/
def hexDigitChar (n : Nat) : Char :=
  if n < 10 then Char.ofNat (48 + n) else Char.ofNat (87 + n)

/-- Characters below code point 256 that Python repr shows as a backslash-x
escape: control characters other than tab, newline and carriage return, DEL,
the C1 range, and the soft hyphen. -/
def needsHex (c : Char) : Bool :=
  c.toNat < 32 || c.toNat == 127 || (128 ≤ c.toNat && c.toNat ≤ 160) || c.toNat == 173

/-- repr escaping of one character of a Python string, q being the chosen
quote character.  Models CPython unicode repr for code points below 256;
higher non-printable code points (which Python would escape with backslash-u)
are left raw, which no claim here touches. -/
def escapeChar (q c : Char) : List Char :=
  if c = '\\' then ['\\', '\\']
  else if c = q then ['\\', q]
  else if c = '\n' then ['\\', 'n']
  else if c = '\r' then ['\\', 'r']
  else if c = '\t' then ['\\', 't']
  else if needsHex c then ['\\', 'x', hexDigitChar (c.toNat / 16), hexDigitChar (c.toNat % 16)]
  else [c]

/-- Escaped body of a string under repr with quote character q. -/
def escBody (q : Char) : List Char → List Char
  | [] => []
  | c :: cs => escapeChar q c ++ escBody q cs

/-- Quote character Python repr chooses for a string: double quote when the
string holds a single quote but no double quote, else single quote. -/
def chosenQuote (s : List Char) : Char :=
  if s.contains '\x27' && !(s.contains '\x22') then '\x22' else '\x27'

/-- Python repr of a string, as the list of its characters. -/
def pyReprStrL (s : List Char) : List Char :=
  chosenQuote s :: escBody (chosenQuote s) s ++ [chosenQuote s]

/-- Decimal digits of a natural number, most significant first.  Fuel-based so
that it evaluates by kernel reduction; fuel n is always enough since the
number of digits is at most n for n above 0. -/
def natDigitsAux : Nat → Nat → List Char
  | 0, n => [Char.ofNat (48 + n % 10)]
  | f + 1, n =>
    if n < 10 then [Char.ofNat (48 + n)]
    else natDigitsAux f (n / 10) ++ [Char.ofNat (48 + n % 10)]

/-- Decimal digit characters of a natural number. -/
def natDigits (n : Nat) : List Char := natDigitsAux n n

/-- Python str of an integer. -/
def intReprL : Int → List Char
  | Int.ofNat m => natDigits m
  | Int.negSucc m => '-' :: natDigits (m + 1)

/-- Python repr of a scalar value, as used by str on a dict. -/
def pyRepr : Value → List Char
  | Value.str s => pyReprStrL s.data
  | Value.num n => intReprL n
  | Value.null => ['N', 'o', 'n', 'e']

/-- One key-value entry as rendered inside str of a dict: repr of the key, a
colon and a space, repr of the value. -/
def entryChars (kv : String × Value) : List Char :=
  pyReprStrL kv.1.data ++ ':' :: ' ' :: pyRepr kv.2

/-- Entries joined by comma-space, as rendered by str of a dict. -/
def entriesStr : List (String × Value) → List Char
  | [] => []
  | [kv] => entryChars kv
  | kv :: rest => entryChars kv ++ ',' :: ' ' :: entriesStr rest

/-- Python str of a dict, iterating entries in insertion order. -/
def strDict (l : List (String × Value)) : List Char :=
  '\x7b' :: entriesStr l ++ ['\x7d']

/-- Python exception outcomes the validator operations can produce. -/
inductive PyError where
  | noIDError
  | keyError (key : String)
  | typeError
  | attributeError
deriving DecidableEq

/-- Mutable state of one DataValidator instance: the set of ids of bad
records, and the registry mapping fingerprint strings to the id of the first
record seen with that fingerprint. -/
structure DataValidator where
  bad_records : Finset Value
  records_seen : List (List Char × Value)
deriving DecidableEq

/-- Fresh validator state, as built by the constructor. -/
def initValidator : DataValidator := { bad_records := ∅, records_seen := [] }

/-- remove_id: a record with all fields except the id, insertion order kept. -/
def remove_id (record : Record) : Record :=
  record.filter (fun kv => kv.1 != "id")

/-- Fingerprint string computed in have_seen and add_duplicate_to_bad_records:
str applied to the id-stripped record. -/
def fingerprint (record : Record) : List Char := strDict (remove_id record)

/-- have_seen: true when the fingerprint is already registered, leaving the
state untouched; otherwise registers the fingerprint with the record's id and
returns false.  Reading the id of an id-less unseen record raises KeyError. -/
def have_seen (v : DataValidator) (record : Record) : Except PyError (Bool × DataValidator) :=
  match v.records_seen.lookup (fingerprint record) with
  | some _ => Except.ok (true, v)
  | none =>
    match record.lookup "id" with
    | some i =>
      Except.ok (false, { v with records_seen := v.records_seen ++ [(fingerprint record, i)] })
    | none => Except.error (PyError.keyError "id")

/-- is_null_missing_blank: true when the key is missing, the value is None, or
the value has zero length.  Taking len of an integer raises TypeError, as in
Python. -/
def is_null_missing_blank (v : DataValidator) (record : Record) (key : String) :
    Except PyError (Bool × DataValidator) :=
  match record.lookup key with
  | none => Except.ok (true, v)
  | some Value.null => Except.ok (true, v)
  | some (Value.str s) => if s.length = 0 then Except.ok (true, v) else Except.ok (false, v)
  | some (Value.num _) => Except.error PyError.typeError

/-- Numeric characters below code point 256, per Python str.isnumeric, which
tests the Unicode numeric property: the ASCII digits plus the Latin-1
superscripts one, two, three and the vulgar fractions one quarter, one half,
three quarters.  Numeric code points above 255 are not modelled. -/
def py_isnumericChar (c : Char) : Bool :=
  c.isDigit || c.toNat == 185 || c.toNat == 178 || c.toNat == 179 ||
    c.toNat == 188 || c.toNat == 189 || c.toNat == 190

/-- Python str.isnumeric: nonempty and every character numeric. -/
def py_isnumeric (s : List Char) : Bool :=
  !s.isEmpty && s.all py_isnumericChar

/-- Python str.split with a one-character separator. -/
def splitOnChar (sep : Char) : List Char → List (List Char)
  | [] => [[]]
  | c :: rest =>
    if c = sep then [] :: splitOnChar sep rest
    else
      match splitOnChar sep rest with
      | a :: parts => (c :: a) :: parts
      | [] => [[c]]

/-- valid_zip_code: five or nine numeric characters, or a numeric five-four
pair separated by one hyphen.  Calling the isnumeric string method on a
non-string raises AttributeError, as in Python. -/
def valid_zip_code (v : DataValidator) (zip_code : Value) :
    Except PyError (Bool × DataValidator) :=
  match zip_code with
  | Value.str s =>
    if py_isnumeric s.data && (s.data.length == 5 || s.data.length == 9) then
      Except.ok (true, v)
    else if s.data.contains '-' then
      match splitOnChar '-' s.data with
      | [a0, a1] =>
        if py_isnumeric a0 && a0.length == 5 && py_isnumeric a1 && a1.length == 4 then
          Except.ok (true, v)
        else Except.ok (false, v)
      | _ => Except.ok (false, v)
    else Except.ok (false, v)
  | _ => Except.error PyError.attributeError

/-- add_to_bad_records: add the record's id to the bad set; reading the id of
an id-less record raises KeyError. -/
def add_to_bad_records (v : DataValidator) (record : Record) : Except PyError DataValidator :=
  match record.lookup "id" with
  | some i => Except.ok { v with bad_records := insert i v.bad_records }
  | none => Except.error (PyError.keyError "id")

/-- add_duplicate_to_bad_records: look the fingerprint up in the registry and
add the stored id of the first occurrence to the bad set; no effect when the
fingerprint is absent. -/
def add_duplicate_to_bad_records (v : DataValidator) (record : Record) : DataValidator :=
  match v.records_seen.lookup (fingerprint record) with
  | some orig => { v with bad_records := insert orig v.bad_records }
  | none => v

/-- record_is_valid: raises NoIDError when the id key is absent; otherwise
false when name, address or zip is missing, None or blank, or when the zip
fails valid_zip_code, and true otherwise. -/
def record_is_valid (v : DataValidator) (record : Record) :
    Except PyError (Bool × DataValidator) :=
  if (record.lookup "id").isNone then Except.error PyError.noIDError
  else
    (is_null_missing_blank v record "name").bind (fun bv1 =>
      if bv1.1 then Except.ok (false, bv1.2)
      else
        (is_null_missing_blank bv1.2 record "address").bind (fun bv2 =>
          if bv2.1 then Except.ok (false, bv2.2)
          else
            (is_null_missing_blank bv2.2 record "zip").bind (fun bv3 =>
              if bv3.1 then Except.ok (false, bv3.2)
              else
                match record.lookup "zip" with
                | none => Except.error (PyError.keyError "zip")
                | some zv => valid_zip_code bv3.2 zv)))

/-- Body of the per-record loop of validate_file: duplicates put both the
current id and the registered first id into the bad set; otherwise an invalid
record puts its own id there. -/
def validate_record (v : DataValidator) (d : Record) : Except PyError DataValidator :=
  (have_seen v d).bind (fun bv =>
    if bv.1 then
      (add_to_bad_records bv.2 d).map (fun v2 => add_duplicate_to_bad_records v2 d)
    else
      (record_is_valid bv.2 d).bind (fun bv2 =>
        if bv2.1 then Except.ok bv2.2 else add_to_bad_records bv2.2 d))

/-- The loop of validate_file over the decoded record list, in order; an
uncaught exception aborts the run. -/
def validate_records (v : DataValidator) : List Record → Except PyError DataValidator
  | [] => Except.ok v
  | d :: ds => (validate_record v d).bind (fun v1 => validate_records v1 ds)

/-- Decodes a hexadecimal digit character as produced by hexDigitChar. -/
def decodeHex (c : Char) : Option Nat :=
  if 48 ≤ c.toNat ∧ c.toNat ≤ 57 then some (c.toNat - 48)
  else if 97 ≤ c.toNat ∧ c.toNat ≤ 102 then some (c.toNat - 87)
  else none

/-- Decodes a one-character escape: the backslash, the quote, or a named
control escape. -/
def unescapeChar (q d : Char) : Option Char :=
  if d = '\\' then some '\\'
  else if d = q then some q
  else if d = 'n' then some '\n'
  else if d = 'r' then some '\r'
  else if d = 't' then some '\t'
  else none

/-- Decodes the escaped body of a repr string up to its closing quote,
returning the decoded characters and the remainder of the stream. -/
def decodeStrBody (q : Char) : Nat → List Char → Option (List Char × List Char)
  | 0, _ => none
  | _ + 1, [] => none
  | f + 1, c :: rest =>
    if c = q then some ([], rest)
    else if c = '\\' then
      match rest with
      | [] => none
      | d :: r =>
        if d = 'x' then
          match r with
          | h1 :: h2 :: r2 =>
            match decodeHex h1, decodeHex h2 with
            | some a, some b =>
              (decodeStrBody q f r2).map (fun p => (Char.ofNat (16 * a + b) :: p.1, p.2))
            | _, _ => none
          | _ => none
        else
          match unescapeChar q d with
          | some ch => (decodeStrBody q f r).map (fun p => (ch :: p.1, p.2))
          | none => none
    else (decodeStrBody q f rest).map (fun p => (c :: p.1, p.2))

/-- Decodes a quoted repr string from the head of the stream. -/
def decodeQuoted (f : Nat) (l : List Char) : Option (List Char × List Char) :=
  match l with
  | c :: rest => if c = '\x27' ∨ c = '\x22' then decodeStrBody c f rest else none
  | [] => none

/-- Consumes a maximal run of ASCII digits, accumulating their value. -/
def decDigits : List Char → Nat → (Nat × List Char)
  | [], acc => (acc, [])
  | c :: r, acc => if c.isDigit then decDigits r (10 * acc + (c.toNat - 48)) else (acc, c :: r)

/-- Decodes a nonempty run of ASCII digits from the head of the stream. -/
def decodeNatGreedy (l : List Char) : Option (Nat × List Char) :=
  match l with
  | [] => none
  | c :: r => if c.isDigit then some (decDigits (c :: r) 0) else none

/-- Decodes one repr scalar value from the head of the stream: a quoted
string, the word None, or a decimal integer. -/
def decodeValue (f : Nat) (l : List Char) : Option (Value × List Char) :=
  match l with
  | [] => none
  | c :: rest =>
    if c = '\x27' ∨ c = '\x22' then
      (decodeStrBody c f rest).map (fun p => (Value.str (String.mk p.1), p.2))
    else if c = 'N' then
      match rest with
      | 'o' :: 'n' :: 'e' :: t => some (Value.null, t)
      | _ => none
    else if c = '-' then
      match decodeNatGreedy rest with
      | some (m, t) => some (Value.num (-(m : Int)), t)
      | none => none
    else
      match decodeNatGreedy (c :: rest) with
      | some (m, t) => some (Value.num (m : Int), t)
      | none => none

/-- Expects a colon and a space, the separator between a key and a value. -/
def expectColonSpace : List Char → Option (List Char)
  | ':' :: ' ' :: r => some r
  | _ => none

/-- Expects the separator after an entry: comma-space before another entry, or
the closing brace; the boolean says whether more entries follow. -/
def decodeSep : List Char → Option (Bool × List Char)
  | ',' :: ' ' :: r => some (true, r)
  | c :: r => if c = '\x7d' then some (false, r) else none
  | [] => none

/-- Decodes the entry list of a dict rendering, expecting the stream to start
just after the opening brace and consuming through the closing brace. -/
def decodeEntries : Nat → List Char → Option (List (String × Value) × List Char)
  | 0, _ => none
  | f + 1, l =>
    match l with
    | [] => none
    | c :: t =>
      if c = '\x7d' then some ([], t)
      else
        (decodeQuoted f (c :: t)).bind (fun kr =>
          (expectColonSpace kr.2).bind (fun r2 =>
            (decodeValue f r2).bind (fun vr =>
              (decodeSep vr.2).bind (fun sr =>
                if sr.1 then
                  (decodeEntries f sr.2).map (fun et => ((String.mk kr.1, vr.1) :: et.1, et.2))
                else some ([(String.mk kr.1, vr.1)], sr.2)))))

/-- Fuel sufficient to decode one value. -/
def valueFuel : Value → Nat
  | Value.str s => s.length + 1
  | _ => 1

/-- Fuel sufficient to decode a whole entry list. -/
def dictFuel : List (String × Value) → Nat
  | [] => 1
  | kv :: rest => kv.1.length + valueFuel kv.2 + dictFuel rest + 1

/-- The stream does not begin with an ASCII digit. -/
def nonDigitFirst (t : List Char) : Prop :=
  match t with
  | [] => True
  | c :: _ => c.isDigit = false

/-- Stated from the spec's words of claim C1: the two records have identical
field sets and identical field values, the id field excluded; fields are read
by key, disregarding order. -/
def sameFieldsExceptId (r1 r2 : Record) : Prop :=
  ∀ k : String, k ≠ "id" → r1.lookup k = r2.lookup k

/-- The record with the value of its id field replaced, every other field and
the field order untouched. -/
def setIdValue (r : Record) (x : Value) : Record :=
  r.map (fun kv => if kv.1 = "id" then (kv.1, x) else kv)

/-- The field is absent, null, or the empty string. -/
def blankAt (r : Record) (k : String) : Prop :=
  r.lookup k = none ∨ r.lookup k = some Value.null ∨ r.lookup k = some (Value.str "")

/-- The field, when present, is not an integer: the blankness rule is only
specified for string-or-null-valued fields. -/
def strOrNullAt (r : Record) (k : String) : Prop :=
  ∀ n : Int, r.lookup k ≠ some (Value.num n)

/-- The five-record scenario of the reference test: records 0 and 1 share
their content, record 2 is unique and valid, records 3 and 4 share their
content and hold a null address. -/
def testRecords : List Record :=
  [[("name", Value.str "0"), ("address", Value.str "1"), ("zip", Value.str "00000"),
    ("id", Value.str "7152")],
   [("name", Value.str "0"), ("address", Value.str "1"), ("zip", Value.str "00000"),
    ("id", Value.str "9913")],
   [("name", Value.str "2"), ("address", Value.str "3"), ("zip", Value.str "00004"),
    ("id", Value.str "2467")],
   [("name", Value.str "0"), ("address", Value.null), ("zip", Value.str "00000"),
    ("id", Value.str "1192")],
   [("name", Value.str "0"), ("address", Value.null), ("zip", Value.str "00000"),
    ("id", Value.str "9222")]]

/-- A string of five copies of the vulgar fraction one half character, code
point 189. -/
def fiveHalves : String := String.mk (List.replicate 5 (Char.ofNat 189))

theorem lookup_cons {α β : Type} [BEq α] (a k : α) (b : β) (l : List (α × β)) :
    List.lookup a ((k, b) :: l) = if (a == k) then some b else List.lookup a l := by
  cases h : a == k <;> simp [List.lookup, h]

theorem lookup_cons_pair {α β : Type} [BEq α] (a : α) (kv : α × β) (l : List (α × β)) :
    List.lookup a (kv :: l) = if (a == kv.1) then some kv.2 else List.lookup a l := by
  rcases kv with ⟨k, b⟩
  exact lookup_cons a k b l

theorem lookup_append_left {α β : Type} [BEq α] (a : α) (l1 l2 : List (α × β)) (x : β)
    (h : List.lookup a l1 = some x) : List.lookup a (l1 ++ l2) = some x := by
  induction l1 with
  | nil => simp [List.lookup] at h
  | cons kv rest ih =>
    rcases kv with ⟨k, b⟩
    rw [List.cons_append, lookup_cons]
    rw [lookup_cons] at h
    cases hk : a == k <;> simp [hk] at h ⊢ <;> simp_all [ih]

theorem lookup_append_missing {α β : Type} [BEq α] (a : α) (l1 l2 : List (α × β))
    (h : List.lookup a l1 = none) : List.lookup a (l1 ++ l2) = List.lookup a l2 := by
  induction l1 with
  | nil => simp
  | cons kv rest ih =>
    rcases kv with ⟨k, b⟩
    rw [List.cons_append, lookup_cons]
    rw [lookup_cons] at h
    cases hk : a == k <;> simp [hk] at h ⊢ <;> simp_all [ih]

theorem decodeHex_hexDigitChar (n : Nat) (h : n < 16) : decodeHex (hexDigitChar n) = some n := by
  interval_cases n <;> decide

theorem needsHex_lt (c : Char) (h : needsHex c = true) : c.toNat < 256 := by
  simp only [needsHex, Bool.or_eq_true, decide_eq_true_eq, Bool.and_eq_true, beq_iff_eq] at h
  rcases h with ((h | h) | h) | h <;> omega

theorem decodeStrBody_rt (q : Char) (hq : q = '\x27' ∨ q = '\x22') (s t : List Char) :
    ∀ f : Nat, s.length < f →
    decodeStrBody q f (escBody q s ++ q :: t) = some (s, t) := by
  have hqb : ('\\' : Char) ≠ q ∧ ('n' : Char) ≠ q ∧ ('r' : Char) ≠ q ∧ ('t' : Char) ≠ q ∧
      ('x' : Char) ≠ q := by
    rcases hq with rfl | rfl <;> exact ⟨by decide, by decide, by decide, by decide, by decide⟩
  induction s with
  | nil =>
    intro f hf
    match f, hf with
    | f + 1, _ => simp [escBody, decodeStrBody]
  | cons c cs ih =>
    intro f0 hf
    obtain ⟨f, rfl⟩ : ∃ f, f0 = f + 1 := ⟨f0 - 1, by omega⟩
    · have hf' : cs.length < f := by
        simp only [List.length_cons] at hf; omega
      have ihc := ih f hf'
      by_cases h1 : c = '\\'
      · subst h1
        simp [escBody, escapeChar, decodeStrBody, hqb.1, unescapeChar, hqb.2.2.2.2, ihc]
      · by_cases h2 : c = q
        · subst h2
          simp [escBody, escapeChar, decodeStrBody, hqb.1, unescapeChar, h1,
            (Ne.symm hqb.2.2.2.2), ihc]
        · by_cases h3 : c = '\n'
          · subst h3
            simp [escBody, escapeChar, decodeStrBody, hqb.1, unescapeChar, h1, h2,
              hqb.2.2.2.2, hqb.2.1, ihc]
          · by_cases h4 : c = '\r'
            · subst h4
              simp [escBody, escapeChar, decodeStrBody, hqb.1, unescapeChar, h1, h2, h3,
                hqb.2.2.2.2, hqb.2.2.1, ihc]
            · by_cases h5 : c = '\t'
              · subst h5
                simp [escBody, escapeChar, decodeStrBody, hqb.1, unescapeChar, h1, h2, h3, h4,
                  hqb.2.2.2.2, hqb.2.2.2.1, ihc]
              · by_cases h6 : needsHex c = true
                · have hc256 : c.toNat < 256 := needsHex_lt c h6
                  have hd1 : decodeHex (hexDigitChar (c.toNat / 16)) = some (c.toNat / 16) :=
                    decodeHex_hexDigitChar _ (by omega)
                  have hd2 : decodeHex (hexDigitChar (c.toNat % 16)) = some (c.toNat % 16) :=
                    decodeHex_hexDigitChar _ (by omega)
                  have hcc : 16 * (c.toNat / 16) + c.toNat % 16 = c.toNat := by omega
                  simp [escBody, escapeChar, decodeStrBody, hqb.1, h1, h2, h3, h4, h5, h6,
                    hd1, hd2, hcc, Char.ofNat_toNat, ihc]
                · simp [escBody, escapeChar, decodeStrBody, h1, h2, h3, h4, h5, h6, ihc]

theorem chosenQuote_cases (s : List Char) :
    chosenQuote s = '\x27' ∨ chosenQuote s = '\x22' := by
  unfold chosenQuote; split
  · exact Or.inr rfl
  · exact Or.inl rfl

theorem decodeQuoted_rt (s t : List Char) (f : Nat) (hf : s.length < f) :
    decodeQuoted f (pyReprStrL s ++ t) = some (s, t) := by
  have hq := chosenQuote_cases s
  unfold pyReprStrL decodeQuoted
  simp only [List.cons_append, List.append_assoc, List.singleton_append]
  rw [if_pos hq]
  exact decodeStrBody_rt _ hq s t f hf

theorem natDigitsAux_fuel : ∀ f1 f2 n : Nat, n ≤ f1 → n ≤ f2 →
    natDigitsAux f1 n = natDigitsAux f2 n := by
  intro f1
  induction f1 with
  | zero =>
    intro f2 n h1 _
    interval_cases n
    cases f2 <;> simp [natDigitsAux]
  | succ f ih =>
    intro f2 n h1 h2
    cases f2 with
    | zero =>
      interval_cases n
      simp [natDigitsAux]
    | succ g =>
      simp only [natDigitsAux]
      by_cases hn : n < 10
      · simp [hn]
      · rw [if_neg hn, if_neg hn, ih g (n / 10) (by omega) (by omega)]

theorem natDigits_small (n : Nat) (h : n < 10) : natDigits n = [Char.ofNat (48 + n)] := by
  unfold natDigits
  cases n with
  | zero => simp [natDigitsAux]
  | succ m => simp [natDigitsAux, h]

theorem natDigits_step (n : Nat) (h : 10 ≤ n) :
    natDigits n = natDigits (n / 10) ++ [Char.ofNat (48 + n % 10)] := by
  unfold natDigits
  obtain ⟨f, rfl⟩ : ∃ f, n = f + 1 := ⟨n - 1, by omega⟩
  · simp only [natDigitsAux, if_neg (by omega : ¬ f + 1 < 10)]
    rw [natDigitsAux_fuel f ((f + 1) / 10) ((f + 1) / 10) (by omega) (by omega)]

theorem digitCharFacts (n : Nat) (h : n < 10) :
    (Char.ofNat (48 + n)).isDigit = true ∧ (Char.ofNat (48 + n)).toNat = 48 + n := by
  interval_cases n <;> exact ⟨by decide, by decide⟩

theorem natDigits_head (n : Nat) :
    ∃ c cs, natDigits n = c :: cs ∧ c.isDigit = true := by
  induction n using Nat.strong_induction_on with
  | _ n ih =>
    by_cases h : n < 10
    · exact ⟨_, _, natDigits_small n h, (digitCharFacts n h).1⟩
    · obtain ⟨c, cs, heq, hdig⟩ := ih (n / 10) (by omega)
      refine ⟨c, cs ++ [Char.ofNat (48 + n % 10)], ?_, hdig⟩
      rw [natDigits_step n (by omega), heq, List.cons_append]

theorem decDigits_stop (t : List Char) (acc : Nat) (h : nonDigitFirst t) :
    decDigits t acc = (acc, t) := by
  cases t with
  | nil => simp [decDigits]
  | cons c r =>
    have hc : c.isDigit = false := h
    simp [decDigits, hc]

theorem decDigits_cons_digit (c : Char) (r : List Char) (acc : Nat) (h : c.isDigit = true) :
    decDigits (c :: r) acc = decDigits r (10 * acc + (c.toNat - 48)) := by
  simp [decDigits, h]

theorem decDigits_natDigits (n : Nat) : ∀ (acc : Nat) (t : List Char),
    decDigits (natDigits n ++ t) acc = decDigits t (acc * 10 ^ (natDigits n).length + n) := by
  induction n using Nat.strong_induction_on with
  | _ n ih =>
    intro acc t
    by_cases h : n < 10
    · rw [natDigits_small n h]
      have hd := digitCharFacts n h
      simp only [List.cons_append, List.nil_append, decDigits_cons_digit _ _ _ hd.1, hd.2,
        List.length_cons, List.length_nil]
      congr 1
      simp only [pow_one, Nat.zero_add]
      omega
    · rw [natDigits_step n (by omega), List.append_assoc]
      rw [ih (n / 10) (by omega) acc _]
      simp only [List.cons_append, List.nil_append]
      have hd := digitCharFacts (n % 10) (by omega)
      rw [decDigits_cons_digit _ _ _ hd.1, hd.2]
      congr 1
      have e1 : 48 + n % 10 - 48 = n % 10 := by omega
      rw [e1]
      simp only [List.length_append, List.length_cons, List.length_nil, Nat.zero_add, pow_succ]
      have hn : 10 * (n / 10) + n % 10 = n := by omega
      generalize (10 : Nat) ^ (natDigits (n / 10)).length = P
      calc 10 * (acc * P + n / 10) + n % 10
          = acc * (P * 10) + (10 * (n / 10) + n % 10) := by ring
        _ = acc * (P * 10) + n := by rw [hn]

theorem decodeNatGreedy_rt (n : Nat) (t : List Char) (ht : nonDigitFirst t) :
    decodeNatGreedy (natDigits n ++ t) = some (n, t) := by
  obtain ⟨c, cs, heq, hdig⟩ := natDigits_head n
  rw [heq, List.cons_append]
  simp only [decodeNatGreedy, hdig, if_true]
  rw [← List.cons_append, ← heq, decDigits_natDigits n 0 t, zero_mul, Nat.zero_add,
    decDigits_stop t n ht]

theorem digit_ne_marks (c : Char) (h : c.isDigit = true) :
    c ≠ '\x27' ∧ c ≠ '\x22' ∧ c ≠ 'N' ∧ c ≠ '-' := by
  refine ⟨?_, ?_, ?_, ?_⟩ <;> rintro rfl <;> exact absurd h (by decide)

theorem decodeValue_rt (v : Value) (t : List Char) (f : Nat) (hf : valueFuel v ≤ f)
    (ht : nonDigitFirst t) : decodeValue f (pyRepr v ++ t) = some (v, t) := by
  cases v with
  | str s =>
    have hq := chosenQuote_cases s.data
    have hlen : s.data.length < f := by
      have h2 : s.data.length + 1 ≤ f := hf
      omega
    show decodeValue f (pyReprStrL s.data ++ t) = _
    unfold pyReprStrL decodeValue
    simp only [List.cons_append, List.append_assoc, List.singleton_append, List.nil_append]
    rw [if_pos hq, decodeStrBody_rt _ hq s.data t f hlen]
    rfl
  | null =>
    show decodeValue f ('N' :: 'o' :: 'n' :: 'e' :: t) = _
    simp only [decodeValue,
      if_neg (by decide : ¬ (('N' : Char) = '\x27' ∨ ('N' : Char) = '\x22')), if_pos rfl]
    simp
  | num n =>
    cases n with
    | ofNat m =>
      obtain ⟨c, cs, heq, hdig⟩ := natDigits_head m
      have hne := digit_ne_marks c hdig
      show decodeValue f (natDigits m ++ t) = _
      rw [heq, List.cons_append]
      simp only [decodeValue, if_neg (by simp [hne.1, hne.2.1] : ¬ (c = '\x27' ∨ c = '\x22')),
        if_neg hne.2.2.1, if_neg hne.2.2.2]
      rw [← List.cons_append, ← heq, decodeNatGreedy_rt m t ht]
      rfl
    | negSucc m =>
      show decodeValue f ('-' :: (natDigits (m + 1) ++ t)) = _
      simp only [decodeValue, if_neg (by decide : ¬ (('-' : Char) = '\x27' ∨ ('-' : Char) = '\x22')),
        if_neg (by decide : ¬ ('-' : Char) = 'N'), if_pos rfl]
      rw [decodeNatGreedy_rt (m + 1) t ht]
      simp [Int.negSucc_eq]

theorem expectColonSpace_eq (r : List Char) : expectColonSpace (':' :: ' ' :: r) = some r := rfl

theorem decodeSep_comma (r : List Char) : decodeSep (',' :: ' ' :: r) = some (true, r) := rfl

theorem decodeSep_rbrace (t : List Char) : decodeSep ('\x7d' :: t) = some (false, t) := rfl

theorem nonDigit_rbrace (t : List Char) : nonDigitFirst ('\x7d' :: t) := rfl

theorem nonDigit_comma (t : List Char) : nonDigitFirst (',' :: t) := rfl

theorem valueFuel_pos (v : Value) : 1 ≤ valueFuel v := by
  cases v <;> simp [valueFuel]

theorem dictFuel_pos (l : List (String × Value)) : 1 ≤ dictFuel l := by
  cases l <;> simp [dictFuel]

theorem quote_ne_rbrace (s : List Char) : chosenQuote s ≠ '\x7d' := by
  rcases chosenQuote_cases s with h | h <;> rw [h] <;> decide

theorem pyReprStrL_cons (k : List Char) (x : List Char) :
    pyReprStrL k ++ x
      = chosenQuote k :: (escBody (chosenQuote k) k ++ chosenQuote k :: x) := by
  simp [pyReprStrL]

theorem decodeEntries_rt : ∀ (l : List (String × Value)) (t : List Char) (f : Nat),
    dictFuel l ≤ f → decodeEntries f (entriesStr l ++ '\x7d' :: t) = some (l, t) := by
  intro l
  induction l with
  | nil =>
    intro t f hf
    obtain ⟨g, rfl⟩ : ∃ g, f = g + 1 := ⟨f - 1, by have := dictFuel_pos ([] : List (String × Value)); omega⟩
    · simp [entriesStr, decodeEntries]
  | cons kv rest ih =>
    intro t f hf
    obtain ⟨g, rfl⟩ : ∃ g, f = g + 1 := ⟨f - 1, by
      have h1 := dictFuel_pos (kv :: rest)
      omega⟩
    · have hvp := valueFuel_pos kv.2
      have hdp := dictFuel_pos rest
      have hfe : kv.1.length + valueFuel kv.2 + dictFuel rest + 1 ≤ g + 1 := hf
      have hlen : kv.1.data.length = kv.1.length := rfl
      have hkey : kv.1.data.length < g := by omega
      have hval : valueFuel kv.2 ≤ g := by omega
      have hrest : dictFuel rest ≤ g := by omega
      have hqr : chosenQuote kv.1.data ≠ '\x7d' := quote_ne_rbrace _
      cases rest with
      | nil =>
        have e1 : entriesStr [kv] ++ '\x7d' :: t
            = pyReprStrL kv.1.data ++ (':' :: ' ' :: (pyRepr kv.2 ++ '\x7d' :: t)) := by
          simp [entriesStr, entryChars]
        rw [e1, pyReprStrL_cons]
        simp only [decodeEntries]
        rw [if_neg hqr, ← pyReprStrL_cons,
          decodeQuoted_rt kv.1.data _ g hkey]
        simp only [Option.some_bind]
        rw [expectColonSpace_eq]
        simp only [Option.some_bind]
        rw [decodeValue_rt kv.2 _ g hval (nonDigit_rbrace t)]
        simp only [Option.some_bind]
        rw [decodeSep_rbrace]
        simp only [Option.some_bind]
        rfl
      | cons kv2 rest2 =>
        have e1 : entriesStr (kv :: kv2 :: rest2) ++ '\x7d' :: t
            = pyReprStrL kv.1.data
              ++ (':' :: ' ' :: (pyRepr kv.2
                ++ ',' :: ' ' :: (entriesStr (kv2 :: rest2) ++ '\x7d' :: t))) := by
          simp [entriesStr, entryChars]
        rw [e1, pyReprStrL_cons]
        simp only [decodeEntries]
        rw [if_neg hqr, ← pyReprStrL_cons,
          decodeQuoted_rt kv.1.data _ g hkey]
        simp only [Option.some_bind]
        rw [expectColonSpace_eq]
        simp only [Option.some_bind]
        rw [decodeValue_rt kv.2 _ g hval (nonDigit_comma _)]
        simp only [Option.some_bind]
        rw [decodeSep_comma]
        simp only [Option.some_bind]
        rw [if_pos trivial, ih _ g hrest]
        rfl

theorem strDict_inj (l1 l2 : List (String × Value)) (h : strDict l1 = strDict l2) :
    l1 = l2 := by
  simp only [strDict] at h
  injection h with h1 h2
  have r1 := decodeEntries_rt l1 [] (dictFuel l1 + dictFuel l2) (by omega)
  have r2 := decodeEntries_rt l2 [] (dictFuel l1 + dictFuel l2) (by omega)
  have hs : entriesStr l1 ++ '\x7d' :: ([] : List Char)
      = entriesStr l2 ++ '\x7d' :: ([] : List Char) := h2
  rw [hs, r2] at r1
  exact (Prod.mk.injEq _ _ _ _ ▸ Option.some.inj r1).1.symm

theorem exc_bind_ok {α β : Type} (a : α) (f : α → Except PyError β) :
    (Except.ok a : Except PyError α).bind f = f a := rfl

theorem exc_bind_error {α β : Type} (e : PyError) (f : α → Except PyError β) :
    (Except.error e : Except PyError α).bind f = Except.error e := rfl

theorem exc_map_ok {α β : Type} (a : α) (f : α → β) :
    (Except.ok a : Except PyError α).map f = Except.ok (f a) := rfl

theorem exc_map_error {α β : Type} (e : PyError) (f : α → β) :
    (Except.error e : Except PyError α).map f = Except.error e := rfl

theorem str_length_ne_zero (s : String) (h : s ≠ "") : s.length ≠ 0 := by
  cases s with
  | mk l =>
    cases l with
    | nil => exact absurd rfl h
    | cons c cs => intro h0; simp [String.length] at h0

theorem inmb_missing (v : DataValidator) (r : Record) (k : String) (h : r.lookup k = none) :
    is_null_missing_blank v r k = Except.ok (true, v) := by
  unfold is_null_missing_blank; rw [h]

theorem inmb_null (v : DataValidator) (r : Record) (k : String)
    (h : r.lookup k = some Value.null) :
    is_null_missing_blank v r k = Except.ok (true, v) := by
  unfold is_null_missing_blank; rw [h]

theorem inmb_empty (v : DataValidator) (r : Record) (k : String)
    (h : r.lookup k = some (Value.str "")) :
    is_null_missing_blank v r k = Except.ok (true, v) := by
  unfold is_null_missing_blank; rw [h]; rfl

theorem inmb_nonempty (v : DataValidator) (r : Record) (k : String) (s : String)
    (h : r.lookup k = some (Value.str s)) (hs : s ≠ "") :
    is_null_missing_blank v r k = Except.ok (false, v) := by
  unfold is_null_missing_blank; rw [h]; dsimp only
  rw [if_neg (str_length_ne_zero s hs)]

theorem inmb_num (v : DataValidator) (r : Record) (k : String) (n : Int)
    (h : r.lookup k = some (Value.num n)) :
    is_null_missing_blank v r k = Except.error PyError.typeError := by
  unfold is_null_missing_blank; rw [h]

theorem inmb_ok_state (v : DataValidator) (r : Record) (k : String) (b : Bool)
    (v' : DataValidator) (h : is_null_missing_blank v r k = Except.ok (b, v')) : v' = v := by
  rcases hl : r.lookup k with _ | val
  · rw [inmb_missing v r k hl] at h
    injection h with h1; injection h1 with hb hv; exact hv.symm
  · rcases val with s | n | _
    · by_cases hs : s = ""
      · subst hs
        rw [inmb_empty v r k hl] at h
        injection h with h1; injection h1 with hb hv; exact hv.symm
      · rw [inmb_nonempty v r k s hl hs] at h
        injection h with h1; injection h1 with hb hv; exact hv.symm
    · rw [inmb_num v r k n hl] at h; cases h
    · rw [inmb_null v r k hl] at h
      injection h with h1; injection h1 with hb hv; exact hv.symm

theorem zip_str_ok (v : DataValidator) (s : String) :
    ∃ b, valid_zip_code v (Value.str s) = Except.ok (b, v) := by
  unfold valid_zip_code
  dsimp only
  by_cases h1 : (py_isnumeric s.data && (s.data.length == 5 || s.data.length == 9)) = true
  · rw [if_pos h1]; exact ⟨true, rfl⟩
  · rw [if_neg h1]
    by_cases h2 : (s.data.contains '-') = true
    · rw [if_pos h2]
      rcases hsp : splitOnChar '-' s.data with _ | ⟨a0, rest⟩
      · exact ⟨false, rfl⟩
      · rcases rest with _ | ⟨a1, rest2⟩
        · exact ⟨false, rfl⟩
        · rcases rest2 with _ | ⟨a2, rest3⟩
          · dsimp only
            by_cases h3 : (py_isnumeric a0 && a0.length == 5 && py_isnumeric a1 &&
                a1.length == 4) = true
            · rw [if_pos h3]; exact ⟨true, rfl⟩
            · rw [if_neg h3]; exact ⟨false, rfl⟩
          · exact ⟨false, rfl⟩
    · rw [if_neg h2]; exact ⟨false, rfl⟩

theorem zip_ok_state (v : DataValidator) (z : Value) (b : Bool) (v' : DataValidator)
    (h : valid_zip_code v z = Except.ok (b, v')) : v' = v := by
  rcases z with s | n | _
  · obtain ⟨b2, h2⟩ := zip_str_ok v s
    rw [h2] at h
    injection h with h1; injection h1 with hb hv; exact hv.symm
  · cases h
  · cases h

theorem have_seen_dup (v : DataValidator) (d : Record) (x : Value)
    (h : v.records_seen.lookup (fingerprint d) = some x) :
    have_seen v d = Except.ok (true, v) := by
  unfold have_seen; rw [h]

theorem have_seen_new (v : DataValidator) (d : Record) (i : Value)
    (h : v.records_seen.lookup (fingerprint d) = none) (hi : d.lookup "id" = some i) :
    have_seen v d
      = Except.ok (false, { v with records_seen := v.records_seen ++ [(fingerprint d, i)] }) := by
  unfold have_seen; rw [h, hi]

theorem have_seen_noid (v : DataValidator) (d : Record)
    (h : v.records_seen.lookup (fingerprint d) = none) (hi : d.lookup "id" = none) :
    have_seen v d = Except.error (PyError.keyError "id") := by
  unfold have_seen; rw [h, hi]

theorem atb_ok (v : DataValidator) (d : Record) (i : Value) (hi : d.lookup "id" = some i) :
    add_to_bad_records v d = Except.ok { v with bad_records := insert i v.bad_records } := by
  unfold add_to_bad_records; rw [hi]

theorem atb_noid (v : DataValidator) (d : Record) (hi : d.lookup "id" = none) :
    add_to_bad_records v d = Except.error (PyError.keyError "id") := by
  unfold add_to_bad_records; rw [hi]

theorem adb_found (v : DataValidator) (d : Record) (orig : Value)
    (h : v.records_seen.lookup (fingerprint d) = some orig) :
    add_duplicate_to_bad_records v d = { v with bad_records := insert orig v.bad_records } := by
  unfold add_duplicate_to_bad_records; rw [h]

theorem id_present_cond (r : Record) (i : Value) (hid : r.lookup "id" = some i) :
    ¬ ((r.lookup "id").isNone = true) := by
  rw [hid]; simp

theorem inmb_blank (v : DataValidator) (r : Record) (k : String) (hb : blankAt r k) :
    is_null_missing_blank v r k = Except.ok (true, v) := by
  rcases hb with h | h | h
  · exact inmb_missing v r k h
  · exact inmb_null v r k h
  · exact inmb_empty v r k h

theorem inmb_not_blank (v : DataValidator) (r : Record) (k : String)
    (hs : strOrNullAt r k) (hb : ¬ blankAt r k) :
    is_null_missing_blank v r k = Except.ok (false, v) := by
  rcases hl : r.lookup k with _ | val
  · exact absurd (Or.inl hl) hb
  · rcases val with s | n | _
    · by_cases he : s = ""
      · subst he; exact absurd (Or.inr (Or.inr hl)) hb
      · exact inmb_nonempty v r k s hl he
    · exact absurd hl (hs n)
    · exact absurd (Or.inr (Or.inl hl)) hb

theorem inmb_error_inv (v : DataValidator) (r : Record) (k : String) (e : PyError)
    (h : is_null_missing_blank v r k = Except.error e) : e = PyError.typeError := by
  rcases hl : r.lookup k with _ | val
  · rw [inmb_missing v r k hl] at h; cases h
  · rcases val with s | n | _
    · by_cases he : s = ""
      · subst he; rw [inmb_empty v r k hl] at h; cases h
      · rw [inmb_nonempty v r k s hl he] at h; cases h
    · rw [inmb_num v r k n hl] at h; injection h with h1; exact h1.symm
    · rw [inmb_null v r k hl] at h; cases h

theorem inmb_false_inv (v : DataValidator) (r : Record) (k : String) (v' : DataValidator)
    (h : is_null_missing_blank v r k = Except.ok (false, v')) :
    ∃ s, r.lookup k = some (Value.str s) ∧ s ≠ "" := by
  rcases hl : r.lookup k with _ | val
  · rw [inmb_missing v r k hl] at h
    injection h with h1; injection h1 with hb _; exact absurd hb (by decide)
  · rcases val with s | n | _
    · by_cases he : s = ""
      · subst he; rw [inmb_empty v r k hl] at h
        injection h with h1; injection h1 with hb _; exact absurd hb (by decide)
      · exact ⟨s, rfl, he⟩
    · rw [inmb_num v r k n hl] at h; cases h
    · rw [inmb_null v r k hl] at h
      injection h with h1; injection h1 with hb _; exact absurd hb (by decide)

theorem riv_noid (v : DataValidator) (r : Record) (hid : r.lookup "id" = none) :
    record_is_valid v r = Except.error PyError.noIDError := by
  unfold record_is_valid
  rw [if_pos (by rw [hid]; rfl)]

theorem riv_false_name (v : DataValidator) (r : Record) (i : Value)
    (hid : r.lookup "id" = some i) (hb : blankAt r "name") :
    record_is_valid v r = Except.ok (false, v) := by
  unfold record_is_valid
  rw [if_neg (id_present_cond r i hid)]
  simp only [inmb_blank v r "name" hb, exc_bind_ok]
  rfl

theorem riv_false_address (v : DataValidator) (r : Record) (i : Value)
    (hid : r.lookup "id" = some i) (hn1 : strOrNullAt r "name") (hn2 : ¬ blankAt r "name")
    (hb : blankAt r "address") :
    record_is_valid v r = Except.ok (false, v) := by
  unfold record_is_valid
  rw [if_neg (id_present_cond r i hid)]
  simp only [inmb_not_blank v r "name" hn1 hn2, exc_bind_ok,
    inmb_blank v r "address" hb]
  rfl

theorem riv_false_zip (v : DataValidator) (r : Record) (i : Value)
    (hid : r.lookup "id" = some i) (hn1 : strOrNullAt r "name") (hn2 : ¬ blankAt r "name")
    (ha1 : strOrNullAt r "address") (ha2 : ¬ blankAt r "address")
    (hb : blankAt r "zip") :
    record_is_valid v r = Except.ok (false, v) := by
  unfold record_is_valid
  rw [if_neg (id_present_cond r i hid)]
  simp only [inmb_not_blank v r "name" hn1 hn2, exc_bind_ok,
    inmb_not_blank v r "address" ha1 ha2, inmb_blank v r "zip" hb]
  rfl

theorem riv_zip_eval (v : DataValidator) (r : Record) (i : Value) (ns as1 zs : String)
    (hid : r.lookup "id" = some i)
    (hn : r.lookup "name" = some (Value.str ns)) (hn2 : ns ≠ "")
    (ha : r.lookup "address" = some (Value.str as1)) (ha2 : as1 ≠ "")
    (hz : r.lookup "zip" = some (Value.str zs)) (hz2 : zs ≠ "") :
    record_is_valid v r = valid_zip_code v (Value.str zs) := by
  unfold record_is_valid
  rw [if_neg (id_present_cond r i hid)]
  simp only [inmb_nonempty v r "name" ns hn hn2, exc_bind_ok,
    inmb_nonempty v r "address" as1 ha ha2,
    inmb_nonempty v r "zip" zs hz hz2, hz]
  rfl

theorem riv_cases (v : DataValidator) (r : Record) (i : Value) (hid : r.lookup "id" = some i) :
    record_is_valid v r = Except.error PyError.typeError ∨
      ∃ b, record_is_valid v r = Except.ok (b, v) := by
  unfold record_is_valid
  rw [if_neg (id_present_cond r i hid)]
  cases hn : is_null_missing_blank v r "name" with
  | error e =>
    rw [inmb_error_inv v r "name" e hn]
    exact Or.inl rfl
  | ok bv =>
    obtain ⟨b1, v1⟩ := bv
    have hv1 := (inmb_ok_state v r "name" b1 v1 hn).symm
    subst hv1
    simp only [exc_bind_ok]
    cases b1 with
    | true => exact Or.inr ⟨false, rfl⟩
    | false =>
      rw [if_neg (by simp)]
      cases ha : is_null_missing_blank v r "address" with
      | error e =>
        rw [inmb_error_inv v r "address" e ha]
        exact Or.inl rfl
      | ok bv2 =>
        obtain ⟨b2, v2⟩ := bv2
        have hv2 := (inmb_ok_state v r "address" b2 v2 ha).symm
        subst hv2
        simp only [exc_bind_ok]
        cases b2 with
        | true => exact Or.inr ⟨false, rfl⟩
        | false =>
          rw [if_neg (by simp)]
          cases hz : is_null_missing_blank v r "zip" with
          | error e =>
            rw [inmb_error_inv v r "zip" e hz]
            exact Or.inl rfl
          | ok bv3 =>
            obtain ⟨b3, v3⟩ := bv3
            have hv3 := (inmb_ok_state v r "zip" b3 v3 hz).symm
            subst hv3
            simp only [exc_bind_ok]
            cases b3 with
            | true => exact Or.inr ⟨false, rfl⟩
            | false =>
              rw [if_neg (by simp)]
              obtain ⟨s, hzl, _⟩ := inmb_false_inv v r "zip" v hz
              rw [hzl]
              obtain ⟨b, hzb⟩ := zip_str_ok v s
              exact Or.inr ⟨b, hzb⟩

theorem riv_ok_state (v : DataValidator) (r : Record) (b : Bool) (v' : DataValidator)
    (h : record_is_valid v r = Except.ok (b, v')) : v' = v := by
  rcases hid : r.lookup "id" with _ | i
  · rw [riv_noid v r hid] at h; cases h
  · rcases riv_cases v r i hid with he | ⟨b2, h2⟩
    · rw [he] at h; cases h
    · rw [h2] at h; injection h with h1; injection h1 with _ hv; exact hv.symm

theorem riv_error_inv (v : DataValidator) (r : Record) (i : Value) (e : PyError)
    (hid : r.lookup "id" = some i) (h : record_is_valid v r = Except.error e) :
    e = PyError.typeError := by
  rcases riv_cases v r i hid with he | ⟨b2, h2⟩
  · rw [he] at h; injection h with h1; exact h1.symm
  · rw [h2] at h; cases h

theorem vr_dup (v : DataValidator) (d : Record) (orig i : Value)
    (h : v.records_seen.lookup (fingerprint d) = some orig) (hi : d.lookup "id" = some i) :
    validate_record v d
      = Except.ok { v with bad_records := insert orig (insert i v.bad_records) } := by
  unfold validate_record
  rw [have_seen_dup v d orig h]
  simp only [exc_bind_ok]
  rw [if_pos trivial]
  rw [atb_ok v d i hi]
  simp only [exc_map_ok]
  rw [adb_found { v with bad_records := insert i v.bad_records } d orig h]

theorem vr_dup_noid (v : DataValidator) (d : Record) (orig : Value)
    (h : v.records_seen.lookup (fingerprint d) = some orig) (hi : d.lookup "id" = none) :
    validate_record v d = Except.error (PyError.keyError "id") := by
  unfold validate_record
  rw [have_seen_dup v d orig h]
  simp only [exc_bind_ok]
  rw [if_pos trivial, atb_noid v d hi]
  rfl

theorem vr_new_noid (v : DataValidator) (d : Record)
    (hfp : v.records_seen.lookup (fingerprint d) = none) (hi : d.lookup "id" = none) :
    validate_record v d = Except.error (PyError.keyError "id") := by
  unfold validate_record
  rw [have_seen_noid v d hfp hi]
  rfl

theorem vr_noid (v : DataValidator) (d : Record) (hi : d.lookup "id" = none) :
    validate_record v d = Except.error (PyError.keyError "id") := by
  rcases hfp : v.records_seen.lookup (fingerprint d) with _ | orig
  · exact vr_new_noid v d hfp hi
  · exact vr_dup_noid v d orig hfp hi

theorem vr_new_shape (v : DataValidator) (d : Record) (i : Value)
    (hfp : v.records_seen.lookup (fingerprint d) = none) (hi : d.lookup "id" = some i) :
    validate_record v d
      = (record_is_valid { v with records_seen := v.records_seen ++ [(fingerprint d, i)] } d).bind
          (fun bv2 => if bv2.1 = true then Except.ok bv2.2 else add_to_bad_records bv2.2 d) := by
  unfold validate_record
  rw [have_seen_new v d i hfp hi]
  simp only [exc_bind_ok]
  rw [if_neg (by simp)]

theorem vr_new_cases (v : DataValidator) (d : Record) (i : Value)
    (hfp : v.records_seen.lookup (fingerprint d) = none) (hi : d.lookup "id" = some i) :
    validate_record v d = Except.error PyError.typeError ∨
      ∃ bad2, validate_record v d
          = Except.ok (DataValidator.mk bad2 (v.records_seen ++ [(fingerprint d, i)]))
        ∧ v.bad_records ⊆ bad2 := by
  rw [vr_new_shape v d i hfp hi]
  rcases riv_cases { v with records_seen := v.records_seen ++ [(fingerprint d, i)] } d i hi
    with he | ⟨b, hb⟩
  · rw [he]; exact Or.inl rfl
  · rw [hb]
    simp only [exc_bind_ok]
    cases b with
    | true =>
      rw [if_pos rfl]
      exact Or.inr ⟨v.bad_records, rfl, Finset.Subset.refl _⟩
    | false =>
      rw [if_neg (by simp),
        atb_ok { v with records_seen := v.records_seen ++ [(fingerprint d, i)] } d i hi]
      exact Or.inr ⟨insert i v.bad_records, rfl, Finset.subset_insert _ _⟩

theorem vr_bad_mono (v : DataValidator) (d : Record) (v' : DataValidator)
    (h : validate_record v d = Except.ok v') : v.bad_records ⊆ v'.bad_records := by
  rcases hi : d.lookup "id" with _ | i
  · rw [vr_noid v d hi] at h; cases h
  · rcases hfp : v.records_seen.lookup (fingerprint d) with _ | orig
    · rcases vr_new_cases v d i hfp hi with he | ⟨bad2, h2, hsub⟩
      · rw [he] at h; cases h
      · rw [h2] at h; injection h with h1; rw [← h1]; exact hsub
    · rw [vr_dup v d orig i hfp hi] at h
      injection h with h1; rw [← h1]
      exact (Finset.subset_insert _ _).trans (Finset.subset_insert _ _)

theorem vr_seen_persist (v : DataValidator) (d : Record) (v' : DataValidator)
    (s : List Char) (x : Value) (h : validate_record v d = Except.ok v')
    (hs : v.records_seen.lookup s = some x) : v'.records_seen.lookup s = some x := by
  rcases hi : d.lookup "id" with _ | i
  · rw [vr_noid v d hi] at h; cases h
  · rcases hfp : v.records_seen.lookup (fingerprint d) with _ | orig
    · rcases vr_new_cases v d i hfp hi with he | ⟨bad2, h2, _⟩
      · rw [he] at h; cases h
      · rw [h2] at h; injection h with h1; rw [← h1]
        exact lookup_append_left s _ _ x hs
    · rw [vr_dup v d orig i hfp hi] at h
      injection h with h1; rw [← h1]; exact hs

theorem vr_fp_after (v : DataValidator) (d : Record) (i : Value) (v' : DataValidator)
    (hi : d.lookup "id" = some i) (h : validate_record v d = Except.ok v') :
    ∃ y, v'.records_seen.lookup (fingerprint d) = some y := by
  rcases hfp : v.records_seen.lookup (fingerprint d) with _ | orig
  · rcases vr_new_cases v d i hfp hi with he | ⟨bad2, h2, _⟩
    · rw [he] at h; cases h
    · rw [h2] at h; injection h with h1; rw [← h1]
      refine ⟨i, ?_⟩
      rw [lookup_append_missing _ _ _ hfp, lookup_cons]
      simp
  · rw [vr_dup v d orig i hfp hi] at h
    injection h with h1; rw [← h1]; exact ⟨orig, hfp⟩

theorem vrs_cons (v : DataValidator) (d : Record) (ds : List Record) :
    validate_records v (d :: ds)
      = (validate_record v d).bind (fun v1 => validate_records v1 ds) := rfl

theorem vrs_cons_inv (v : DataValidator) (d : Record) (ds : List Record) (v1 : DataValidator)
    (h : validate_records v (d :: ds) = Except.ok v1) :
    ∃ vA, validate_record v d = Except.ok vA ∧ validate_records vA ds = Except.ok v1 := by
  rw [vrs_cons] at h
  rcases hv : validate_record v d with e | vA
  · rw [hv, exc_bind_error] at h; cases h
  · rw [hv, exc_bind_ok] at h; exact ⟨vA, rfl, h⟩

theorem vrs_append (l1 : List Record) : ∀ (v : DataValidator) (l2 : List Record)
    (v1 : DataValidator), validate_records v (l1 ++ l2) = Except.ok v1 →
    ∃ vm, validate_records v l1 = Except.ok vm ∧ validate_records vm l2 = Except.ok v1 := by
  induction l1 with
  | nil => exact fun v l2 v1 h => ⟨v, rfl, h⟩
  | cons d l1' ih =>
    intro v l2 v1 h
    rw [List.cons_append] at h
    obtain ⟨vA, h1, h2⟩ := vrs_cons_inv v d (l1' ++ l2) v1 h
    obtain ⟨vm, h3, h4⟩ := ih vA l2 v1 h2
    exact ⟨vm, by rw [vrs_cons, h1, exc_bind_ok]; exact h3, h4⟩

theorem vrs_bad_mono (ds : List Record) : ∀ (v v1 : DataValidator),
    validate_records v ds = Except.ok v1 → v.bad_records ⊆ v1.bad_records := by
  induction ds with
  | nil =>
    intro v v1 h
    injection h with h1; rw [← h1]
  | cons d ds' ih =>
    intro v v1 h
    obtain ⟨vA, h1, h2⟩ := vrs_cons_inv v d ds' v1 h
    exact (vr_bad_mono v d vA h1).trans (ih vA v1 h2)

theorem vrs_seen_persist (ds : List Record) : ∀ (v v1 : DataValidator) (s : List Char)
    (x : Value), validate_records v ds = Except.ok v1 →
    v.records_seen.lookup s = some x → v1.records_seen.lookup s = some x := by
  induction ds with
  | nil =>
    intro v v1 s x h hs
    injection h with h1; rw [← h1]; exact hs
  | cons d ds' ih =>
    intro v v1 s x h hs
    obtain ⟨vA, h1, h2⟩ := vrs_cons_inv v d ds' v1 h
    exact ih vA v1 s x h2 (vr_seen_persist v d vA s x h1 hs)

theorem setId_cons (kv : String × Value) (rest : Record) (x : Value) :
    setIdValue (kv :: rest) x
      = (if kv.1 = "id" then (kv.1, x) else kv) :: setIdValue rest x := rfl

theorem lookup_setId_ne (r : Record) (x : Value) (k : String) (hk : k ≠ "id") :
    (setIdValue r x).lookup k = r.lookup k := by
  induction r with
  | nil => rfl
  | cons kv rest ih =>
    rw [setId_cons, lookup_cons_pair, lookup_cons_pair]
    by_cases h0 : kv.1 = "id"
    · have hne : (k == kv.1) = false := beq_eq_false_iff_ne.mpr (fun he => hk (he.trans h0))
      rw [if_pos h0]
      simp only [hne]
      simp [ih]
    · rw [if_neg h0]
      cases hkk : k == kv.1
      · simp [hkk, ih]
      · simp [hkk]

theorem lookup_setId_id (r : Record) (x i : Value) (h : r.lookup "id" = some i) :
    (setIdValue r x).lookup "id" = some x := by
  induction r with
  | nil => cases h
  | cons kv rest ih =>
    rw [lookup_cons_pair] at h
    rw [setId_cons, lookup_cons_pair]
    by_cases h0 : kv.1 = "id"
    · have hbe : ("id" == kv.1) = true := by simp [h0]
      rw [if_pos h0]
      simp [hbe]
    · have hbe : ("id" == kv.1) = false := beq_eq_false_iff_ne.mpr (fun he => h0 he.symm)
      rw [hbe] at h
      rw [if_neg h0]
      simp only [hbe]
      simp only [if_neg (by simp : ¬ (false = true))] at h ⊢
      exact ih h

theorem remove_id_setId (r : Record) (x : Value) :
    remove_id (setIdValue r x) = remove_id r := by
  induction r with
  | nil => rfl
  | cons kv rest ih =>
    rw [setId_cons]
    unfold remove_id at ih ⊢
    by_cases h0 : kv.1 = "id"
    · rw [if_pos h0, List.filter_cons, List.filter_cons]
      rw [if_neg (by simp [h0]), if_neg (by simp [h0])]
      exact ih
    · rw [if_neg h0, List.filter_cons, List.filter_cons]
      rw [if_pos (by simp [h0]), if_pos (by simp [h0])]
      rw [List.cons.injEq]
      exact ⟨rfl, ih⟩

theorem fingerprint_setId (r : Record) (x : Value) :
    fingerprint (setIdValue r x) = fingerprint r := by
  unfold fingerprint; rw [remove_id_setId]

theorem inmb_congr (r1 r2 : Record) (k : String) (h : r1.lookup k = r2.lookup k)
    (v : DataValidator) :
    is_null_missing_blank v r1 k = is_null_missing_blank v r2 k := by
  unfold is_null_missing_blank; rw [h]

theorem riv_setId (v : DataValidator) (r : Record) (x i : Value)
    (hid : r.lookup "id" = some i) :
    record_is_valid v (setIdValue r x) = record_is_valid v r := by
  unfold record_is_valid
  rw [lookup_setId_id r x i hid, hid]
  simp only [inmb_congr (setIdValue r x) r "name" (lookup_setId_ne r x "name" (by decide)),
    inmb_congr (setIdValue r x) r "address" (lookup_setId_ne r x "address" (by decide)),
    inmb_congr (setIdValue r x) r "zip" (lookup_setId_ne r x "zip" (by decide)),
    lookup_setId_ne r x "zip" (by decide), Option.isNone_some]

theorem have_seen_setId_fst (v : DataValidator) (r : Record) (x i : Value)
    (hid : r.lookup "id" = some i) :
    (have_seen v (setIdValue r x)).map Prod.fst = (have_seen v r).map Prod.fst := by
  rcases hfp : v.records_seen.lookup (fingerprint r) with _ | y
  · rw [have_seen_new v r i hfp hid,
      have_seen_new v (setIdValue r x) x (by rw [fingerprint_setId]; exact hfp)
        (lookup_setId_id r x i hid)]
    rfl
  · rw [have_seen_dup v r y hfp,
      have_seen_dup v (setIdValue r x) y (by rw [fingerprint_setId]; exact hfp)]

theorem vrs_append_fwd (l1 : List Record) : ∀ (v vm : DataValidator) (l2 : List Record),
    validate_records v l1 = Except.ok vm →
    validate_records v (l1 ++ l2) = validate_records vm l2 := by
  induction l1 with
  | nil =>
    intro v vm l2 h
    injection h with h1; rw [h1]; rfl
  | cons d l1' ih =>
    intro v vm l2 h
    obtain ⟨vA, hA, hrest⟩ := vrs_cons_inv v d l1' vm h
    rw [List.cons_append, vrs_cons, hA, exc_bind_ok]
    exact ih vA vm l2 hrest

/-- Claim C1, as stated, is false on the code: the fingerprint is the string
serialization of the id-stripped dict in insertion order, so two records with
identical field sets and identical field values whose keys stand in a
different order get different fingerprints.  This exhibits such a pair, on
which fingerprint equality and field-set equality disagree. -/
theorem c1_counterexample :
    ¬ (fingerprint [("a", Value.str "0"), ("b", Value.str "1"), ("id", Value.str "1")]
          = fingerprint [("b", Value.str "1"), ("a", Value.str "0"), ("id", Value.str "2")]
        ↔ sameFieldsExceptId
            [("a", Value.str "0"), ("b", Value.str "1"), ("id", Value.str "1")]
            [("b", Value.str "1"), ("a", Value.str "0"), ("id", Value.str "2")]) := by
  intro h
  have hsf : sameFieldsExceptId
      [("a", Value.str "0"), ("b", Value.str "1"), ("id", Value.str "1")]
      [("b", Value.str "1"), ("a", Value.str "0"), ("id", Value.str "2")] := by
    intro k hk
    by_cases ha : k = "a"
    · subst ha; decide
    · by_cases hb : k = "b"
      · subst hb; decide
      · have ha2 : (k == "a") = false := beq_eq_false_iff_ne.mpr ha
        have hb2 : (k == "b") = false := beq_eq_false_iff_ne.mpr hb
        have hid2 : (k == "id") = false := beq_eq_false_iff_ne.mpr hk
        simp [lookup_cons, ha2, hb2, hid2]
  exact absurd (h.mpr hsf) (by decide)

/-- Claim C1 (amended): two records produce equal fingerprints exactly when
their id-stripped key-value sequences agree, keys in the same insertion
order with identical values including type; in particular numeric 0 against
string "0", and null against the string "None", give different
fingerprints. -/
theorem c1_amended_thm :
    (∀ r1 r2 : Record, fingerprint r1 = fingerprint r2 ↔ remove_id r1 = remove_id r2) ∧
    fingerprint [("a", Value.num 0), ("id", Value.str "1")]
      ≠ fingerprint [("a", Value.str "0"), ("id", Value.str "2")] ∧
    fingerprint [("a", Value.null), ("id", Value.str "1")]
      ≠ fingerprint [("a", Value.str "None"), ("id", Value.str "2")] := by
  refine ⟨fun r1 r2 => ⟨fun h => strDict_inj _ _ h, fun h => ?_⟩, by decide, by decide⟩
  unfold fingerprint
  rw [h]

/-- Claim C1 witness: the amended equivalence applied to a concrete pair of
records that differ only in their id value. -/
theorem c1_amended_witness :
    fingerprint [("a", Value.str "0"), ("id", Value.str "7")]
      = fingerprint [("a", Value.str "0"), ("id", Value.str "8")] :=
  (c1_amended_thm.1 [("a", Value.str "0"), ("id", Value.str "7")]
    [("a", Value.str "0"), ("id", Value.str "8")]).mpr (by decide)

/-- Claim C2: on the five-record reference scenario the validation loop
produces exactly the bad set of the four flagged identifiers, and the unique
valid record 2467 is not flagged. -/
theorem c2_scenario :
    ∃ w, validate_records initValidator testRecords = Except.ok w ∧
      w.bad_records = ({Value.str "7152", Value.str "9913", Value.str "1192",
        Value.str "9222"} : Finset Value) ∧
      Value.str "2467" ∉ w.bad_records :=
  ⟨_, rfl, by decide, by decide⟩

/-- Claim C4, as stated, is false on the code: a record with no id makes the
validation pass fail, but with the plain KeyError raised by the id subscript
in have_seen, not with the distinct NoIDError; the NoIDError check in
record_is_valid is never reached from the loop. -/
theorem c4_counterexample :
    validate_records initValidator [[("name", Value.str "x")]]
        = Except.error (PyError.keyError "id") ∧
      validate_records initValidator [[("name", Value.str "x")]]
        ≠ Except.error PyError.noIDError := by
  refine ⟨rfl, fun h => ?_⟩
  have h2 : (Except.error (PyError.keyError "id") : Except PyError DataValidator)
      = Except.error PyError.noIDError := h
  injection h2 with h3
  cases h3

/-- Claim C4 (amended): a record with no id makes the per-record step fail
with the uncaught generic KeyError from the id lookup, which propagates and
aborts the whole run; NoIDError is raised only when record_is_valid is called
directly on such a record; and for every record that has an id, no
missing-identifier failure of either kind is raised by the step. -/
theorem c4_amended_thm :
    (∀ (v : DataValidator) (d : Record), d.lookup "id" = none →
        validate_record v d = Except.error (PyError.keyError "id")) ∧
    (∀ (v : DataValidator) (d : Record), d.lookup "id" = none →
        record_is_valid v d = Except.error PyError.noIDError) ∧
    (∀ (v : DataValidator) (d : Record) (i : Value), d.lookup "id" = some i →
        ∀ e, validate_record v d = Except.error e → e = PyError.typeError) ∧
    (∀ (v vm : DataValidator) (l1 l2 : List Record) (d : Record), d.lookup "id" = none →
        validate_records v l1 = Except.ok vm →
        validate_records v (l1 ++ d :: l2) = Except.error (PyError.keyError "id")) := by
  refine ⟨fun v d hi => vr_noid v d hi, fun v d hi => riv_noid v d hi, ?_, ?_⟩
  · intro v d i hi e he
    rcases hfp : v.records_seen.lookup (fingerprint d) with _ | orig
    · rcases vr_new_cases v d i hfp hi with h2 | ⟨bad2, h2, _⟩
      · rw [h2] at he; injection he with h3; exact h3.symm
      · rw [h2] at he; cases he
    · rw [vr_dup v d orig i hfp hi] at he; cases he
  · intro v vm l1 l2 d hid h1
    rw [vrs_append_fwd l1 v vm (d :: l2) h1, vrs_cons, vr_noid vm d hid, exc_bind_error]

/-- Claim C4 witness: the amended statement applied to a concrete id-less
record. -/
theorem c4_amended_witness :
    validate_record initValidator [("name", Value.str "x")]
      = Except.error (PyError.keyError "id") :=
  c4_amended_thm.1 initValidator [("name", Value.str "x")] (by decide)

/-- Claim C5: every accepted and rejected example the claim lists holds, but
the code also accepts the string of five vulgar-fraction-one-half characters,
which contains no ASCII digit: str.isnumeric accepts any Unicode numeric
character, contradicting the docstring's three digit-only formats. -/
theorem c5_zip_eval : ∀ v : DataValidator,
    valid_zip_code v (Value.str "00000") = Except.ok (true, v) ∧
    valid_zip_code v (Value.str "00000-0000") = Except.ok (true, v) ∧
    valid_zip_code v (Value.str "000000000") = Except.ok (true, v) ∧
    valid_zip_code v (Value.str "") = Except.ok (false, v) ∧
    valid_zip_code v (Value.str "0a000") = Except.ok (false, v) ∧
    valid_zip_code v (Value.str "00") = Except.ok (false, v) ∧
    valid_zip_code v (Value.str "0000000000000000") = Except.ok (false, v) ∧
    valid_zip_code v (Value.str "qwertyuio") = Except.ok (false, v) ∧
    valid_zip_code v (Value.str fiveHalves) = Except.ok (true, v) ∧
    fiveHalves.data.all Char.isDigit = false :=
  fun v => ⟨rfl, rfl, rfl, rfl, rfl, rfl, rfl, rfl, rfl, rfl⟩

/-- Claim C3: a record whose fingerprint is already registered makes the loop
body add both the current record's id and the registered first-occurrence id
to the bad set, with the registry and nothing else changed and field validity
never consulted; and in any run from a fresh validator, for every earlier and
later occurrence pair sharing a fingerprint, both identifiers are in the
final bad set, which covers every occurrence when a fingerprint appears three
or more times. -/
theorem c3_duplicate_policy :
    (∀ (v : DataValidator) (d : Record) (orig i : Value),
        v.records_seen.lookup (fingerprint d) = some orig → d.lookup "id" = some i →
        validate_record v d
          = Except.ok { v with bad_records := insert orig (insert i v.bad_records) }) ∧
    (∀ (l1 l2 l3 : List Record) (da db : Record) (v1 : DataValidator) (ia ib : Value),
        validate_records initValidator (l1 ++ da :: (l2 ++ db :: l3)) = Except.ok v1 →
        fingerprint da = fingerprint db →
        da.lookup "id" = some ia → db.lookup "id" = some ib →
        ia ∈ v1.bad_records ∧ ib ∈ v1.bad_records) := by
  constructor
  · exact fun v d orig i h hi => vr_dup v d orig i h hi
  · intro l1 l2 l3 da db v1 ia ib hrun hfp hia hib
    obtain ⟨vA, h1, h2⟩ := vrs_append l1 initValidator (da :: (l2 ++ db :: l3)) v1 hrun
    obtain ⟨vB, h3, h4⟩ := vrs_cons_inv vA da (l2 ++ db :: l3) v1 h2
    rcases hfpA : vA.records_seen.lookup (fingerprint da) with _ | orig
    · rcases vr_new_cases vA da ia hfpA hia with he | ⟨bad2, hB, hsub⟩
      · rw [he] at h3; cases h3
      · rw [hB] at h3
        injection h3 with h3e
        have hbind : vB.records_seen.lookup (fingerprint db) = some ia := by
          rw [← h3e, ← hfp]
          show (vA.records_seen ++ [(fingerprint da, ia)]).lookup (fingerprint da) = some ia
          rw [lookup_append_missing _ _ _ hfpA, lookup_cons]
          simp
        obtain ⟨vC, h5, h6⟩ := vrs_append l2 vB (db :: l3) v1 h4
        have hbindC := vrs_seen_persist l2 vB vC _ ia h5 hbind
        obtain ⟨vD, h7, h8⟩ := vrs_cons_inv vC db l3 v1 h6
        rw [vr_dup vC db ia ib hbindC hib] at h7
        injection h7 with h7e
        have hiaD : ia ∈ vD.bad_records := by
          rw [← h7e]; exact Finset.mem_insert_self _ _
        have hibD : ib ∈ vD.bad_records := by
          rw [← h7e]; exact Finset.mem_insert_of_mem (Finset.mem_insert_self _ _)
        have hfinal := vrs_bad_mono l3 vD v1 h8
        exact ⟨hfinal hiaD, hfinal hibD⟩
    · rw [vr_dup vA da orig ia hfpA hia] at h3
      injection h3 with h3e
      have hiaB : ia ∈ vB.bad_records := by
        rw [← h3e]; exact Finset.mem_insert_of_mem (Finset.mem_insert_self _ _)
      have hbindB : vB.records_seen.lookup (fingerprint db) = some orig := by
        rw [← h3e, ← hfp]; exact hfpA
      obtain ⟨vC, h5, h6⟩ := vrs_append l2 vB (db :: l3) v1 h4
      have hbindC := vrs_seen_persist l2 vB vC _ orig h5 hbindB
      obtain ⟨vD, h7, h8⟩ := vrs_cons_inv vC db l3 v1 h6
      rw [vr_dup vC db orig ib hbindC hib] at h7
      injection h7 with h7e
      have hibD : ib ∈ vD.bad_records := by
        rw [← h7e]; exact Finset.mem_insert_of_mem (Finset.mem_insert_self _ _)
      have hiaD : ia ∈ vD.bad_records := by
        rw [← h7e]
        exact Finset.mem_insert_of_mem
          (Finset.mem_insert_of_mem (vrs_bad_mono l2 vB vC h5 hiaB))
      have hfinal := vrs_bad_mono l3 vD v1 h8
      exact ⟨hfinal hiaD, hfinal hibD⟩

/-- Claim C3 witness: the duplicate branch applied to a concrete validator
whose registry already binds the record's fingerprint to another id. -/
theorem c3_witness :
    validate_record
        (DataValidator.mk ∅
          [(fingerprint [("name", Value.str "n"), ("id", Value.str "2")], Value.str "1")])
        [("name", Value.str "n"), ("id", Value.str "2")]
      = Except.ok (DataValidator.mk
          (insert (Value.str "1") (insert (Value.str "2") ∅))
          [(fingerprint [("name", Value.str "n"), ("id", Value.str "2")], Value.str "1")]) :=
  c3_duplicate_policy.1
    (DataValidator.mk ∅
      [(fingerprint [("name", Value.str "n"), ("id", Value.str "2")], Value.str "1")])
    [("name", Value.str "n"), ("id", Value.str "2")]
    (Value.str "1") (Value.str "2") (by decide) (by decide)

/-- Claim C6: the first have_seen call presenting a fingerprint returns false
and appends the binding from that fingerprint to the record's id; any
subsequent call presenting an equal fingerprint, whatever its id field,
returns true; and a call whose fingerprint is already registered returns true
leaving the state untouched. -/
theorem c6_have_seen_stateful :
    ∀ (v : DataValidator) (d d2 : Record) (i : Value),
      d.lookup "id" = some i → fingerprint d2 = fingerprint d →
      (v.records_seen.lookup (fingerprint d) = none →
        have_seen v d = Except.ok (false,
          { v with records_seen := v.records_seen ++ [(fingerprint d, i)] }) ∧
        have_seen { v with records_seen := v.records_seen ++ [(fingerprint d, i)] } d2
          = Except.ok (true,
            { v with records_seen := v.records_seen ++ [(fingerprint d, i)] })) ∧
      (∀ x, v.records_seen.lookup (fingerprint d) = some x →
        have_seen v d = Except.ok (true, v)) := by
  intro v d d2 i hi hfp
  constructor
  · intro hnone
    have hb : (v.records_seen ++ [(fingerprint d, i)]).lookup (fingerprint d) = some i := by
      rw [lookup_append_missing _ _ _ hnone, lookup_cons]
      simp
    refine ⟨have_seen_new v d i hnone hi, have_seen_dup _ d2 i ?_⟩
    rw [hfp]
    exact hb
  · exact fun x hx => have_seen_dup v d x hx

/-- Claim C6 witness: a concrete first call followed by a second call with a
different id and an equal fingerprint. -/
theorem c6_witness :
    have_seen initValidator [("a", Value.str "0"), ("id", Value.str "3")]
        = Except.ok (false, DataValidator.mk ∅
            [(fingerprint [("a", Value.str "0"), ("id", Value.str "3")], Value.str "3")]) ∧
      have_seen
          (DataValidator.mk ∅
            [(fingerprint [("a", Value.str "0"), ("id", Value.str "3")], Value.str "3")])
          [("a", Value.str "0"), ("id", Value.str "4")]
        = Except.ok (true, DataValidator.mk ∅
            [(fingerprint [("a", Value.str "0"), ("id", Value.str "3")], Value.str "3")]) :=
  (c6_have_seen_stateful initValidator [("a", Value.str "0"), ("id", Value.str "3")]
    [("a", Value.str "0"), ("id", Value.str "4")] (Value.str "3")
    (by decide) (by decide)).1 (by decide)

/-- Claim C7: a have_seen call on a registered fingerprint returns true with
the whole state unchanged; every binding present in the registry survives any
have_seen call unchanged; and every binding survives a whole validation run
unchanged. -/
theorem c7_registry_grows :
    (∀ (v : DataValidator) (d : Record) (x : Value),
        v.records_seen.lookup (fingerprint d) = some x →
        have_seen v d = Except.ok (true, v)) ∧
    (∀ (v : DataValidator) (d : Record) (b : Bool) (v' : DataValidator),
        have_seen v d = Except.ok (b, v') →
        ∀ (s : List Char) (x : Value), v.records_seen.lookup s = some x →
          v'.records_seen.lookup s = some x) ∧
    (∀ (ds : List Record) (v v1 : DataValidator),
        validate_records v ds = Except.ok v1 →
        ∀ (s : List Char) (x : Value), v.records_seen.lookup s = some x →
          v1.records_seen.lookup s = some x) := by
  refine ⟨fun v d x h => have_seen_dup v d x h, ?_, ?_⟩
  · intro v d b v' h s x hs
    rcases hfp : v.records_seen.lookup (fingerprint d) with _ | y
    · rcases hi : d.lookup "id" with _ | i
      · rw [have_seen_noid v d hfp hi] at h; cases h
      · rw [have_seen_new v d i hfp hi] at h
        injection h with h1; injection h1 with _ hv; rw [← hv]
        exact lookup_append_left s _ _ x hs
    · rw [have_seen_dup v d y hfp] at h
      injection h with h1; injection h1 with _ hv; rw [← hv]; exact hs
  · exact fun ds v v1 h s x hs => vrs_seen_persist ds v v1 s x h hs

/-- Claim C7 witness: a have_seen call on a concrete registered fingerprint
returns true and changes nothing. -/
theorem c7_witness :
    have_seen
        (DataValidator.mk ∅
          [(fingerprint [("a", Value.str "0"), ("id", Value.str "3")], Value.str "3")])
        [("a", Value.str "0"), ("id", Value.str "5")]
      = Except.ok (true, DataValidator.mk ∅
          [(fingerprint [("a", Value.str "0"), ("id", Value.str "3")], Value.str "3")]) :=
  c7_registry_grows.1
    (DataValidator.mk ∅
      [(fingerprint [("a", Value.str "0"), ("id", Value.str "3")], Value.str "3")])
    [("a", Value.str "0"), ("id", Value.str "5")] (Value.str "3") (by decide)

/-- Claim C8: for a record whose id is present, the blankness check is true
exactly when the field is absent, null, or the empty string, and false on any
other string; a blank name, address or zip (the fields holding strings or
null) makes record_is_valid return false; and when all three hold nonempty
strings, record_is_valid returns exactly what valid_zip_code answers on the
zip string. -/
theorem c8_structural_validity :
    ∀ (v : DataValidator) (r : Record) (i : Value), r.lookup "id" = some i →
      (∀ k : String,
        (blankAt r k → is_null_missing_blank v r k = Except.ok (true, v)) ∧
        (∀ s : String, r.lookup k = some (Value.str s) → s ≠ "" →
          is_null_missing_blank v r k = Except.ok (false, v))) ∧
      (strOrNullAt r "name" → strOrNullAt r "address" → strOrNullAt r "zip" →
        (blankAt r "name" ∨ blankAt r "address" ∨ blankAt r "zip") →
        record_is_valid v r = Except.ok (false, v)) ∧
      (∀ ns as1 zs : String,
        r.lookup "name" = some (Value.str ns) → ns ≠ "" →
        r.lookup "address" = some (Value.str as1) → as1 ≠ "" →
        r.lookup "zip" = some (Value.str zs) → zs ≠ "" →
        record_is_valid v r = valid_zip_code v (Value.str zs)) := by
  intro v r i hid
  refine ⟨fun k => ⟨inmb_blank v r k, fun s hs hne => inmb_nonempty v r k s hs hne⟩, ?_, ?_⟩
  · intro hn ha hz hb
    rcases hb with h | h | h
    · exact riv_false_name v r i hid h
    · by_cases hnb : blankAt r "name"
      · exact riv_false_name v r i hid hnb
      · exact riv_false_address v r i hid hn hnb h
    · by_cases hnb : blankAt r "name"
      · exact riv_false_name v r i hid hnb
      · by_cases hab : blankAt r "address"
        · exact riv_false_address v r i hid hn hnb hab
        · exact riv_false_zip v r i hid hn hnb ha hab h
  · exact fun ns as1 zs h1 h2 h3 h4 h5 h6 =>
      riv_zip_eval v r i ns as1 zs hid h1 h2 h3 h4 h5 h6

/-- Claim C8 witness: a concrete record with a null address is judged
invalid by record_is_valid. -/
theorem c8_witness :
    record_is_valid initValidator
        [("name", Value.str "n"), ("address", Value.null), ("zip", Value.str "00000"),
          ("id", Value.str "1")]
      = Except.ok (false, initValidator) := by
  have hth := (c8_structural_validity initValidator
    [("name", Value.str "n"), ("address", Value.null), ("zip", Value.str "00000"),
      ("id", Value.str "1")] (Value.str "1") (by decide)).2.1
  apply hth
  · intro n h
    rw [(by decide : List.lookup "name"
      [("name", Value.str "n"), ("address", Value.null), ("zip", Value.str "00000"),
        ("id", Value.str "1")] = some (Value.str "n"))] at h
    simp at h
  · intro n h
    rw [(by decide : List.lookup "address"
      [("name", Value.str "n"), ("address", Value.null), ("zip", Value.str "00000"),
        ("id", Value.str "1")] = some Value.null)] at h
    simp at h
  · intro n h
    rw [(by decide : List.lookup "zip"
      [("name", Value.str "n"), ("address", Value.null), ("zip", Value.str "00000"),
        ("id", Value.str "1")] = some (Value.str "00000"))] at h
    simp at h
  · exact Or.inr (Or.inl (Or.inr (Or.inl (by decide))))

/-- Claim C9: replacing only the id value of a record leaves the fingerprint,
the boolean have_seen answers against any fixed registry, and the
record_is_valid answer unchanged: the identifier is only payload, never
examined for fingerprinting or field validity. -/
theorem c9_noninterference :
    ∀ (r : Record) (x i : Value) (v : DataValidator), r.lookup "id" = some i →
      fingerprint (setIdValue r x) = fingerprint r ∧
      (have_seen v (setIdValue r x)).map Prod.fst = (have_seen v r).map Prod.fst ∧
      record_is_valid v (setIdValue r x) = record_is_valid v r :=
  fun r x i v hid => ⟨fingerprint_setId r x, have_seen_setId_fst v r x i hid,
    riv_setId v r x i hid⟩

/-- Claim C9 witness: a concrete record keeps its fingerprint when its id
value changes. -/
theorem c9_witness :
    fingerprint (setIdValue [("name", Value.str "n"), ("id", Value.str "1")] (Value.str "9"))
      = fingerprint [("name", Value.str "n"), ("id", Value.str "1")] :=
  (c9_noninterference [("name", Value.str "n"), ("id", Value.str "1")]
    (Value.str "9") (Value.str "1") initValidator (by decide)).1

/-- Claim C10: the query operations is_null_missing_blank, valid_zip_code and
record_is_valid return the validator state they were given unchanged, and
have_seen never modifies the bad-record set. -/
theorem c10_frame :
    (∀ (v : DataValidator) (r : Record) (k : String) (b : Bool) (v' : DataValidator),
        is_null_missing_blank v r k = Except.ok (b, v') → v' = v) ∧
    (∀ (v : DataValidator) (z : Value) (b : Bool) (v' : DataValidator),
        valid_zip_code v z = Except.ok (b, v') → v' = v) ∧
    (∀ (v : DataValidator) (r : Record) (b : Bool) (v' : DataValidator),
        record_is_valid v r = Except.ok (b, v') → v' = v) ∧
    (∀ (v : DataValidator) (d : Record) (b : Bool) (v' : DataValidator),
        have_seen v d = Except.ok (b, v') → v'.bad_records = v.bad_records) := by
  refine ⟨inmb_ok_state, zip_ok_state, riv_ok_state, ?_⟩
  intro v d b v' h
  rcases hfp : v.records_seen.lookup (fingerprint d) with _ | y
  · rcases hi : d.lookup "id" with _ | i
    · rw [have_seen_noid v d hfp hi] at h; cases h
    · rw [have_seen_new v d i hfp hi] at h
      injection h with h1; injection h1 with _ hv; rw [← hv]
  · rw [have_seen_dup v d y hfp] at h
    injection h with h1; injection h1 with _ hv; rw [← hv]

/-- Claim C10 witness: the frame property applied to a concrete blankness
query, whose returned state is the one passed in. -/
theorem c10_witness : (initValidator : DataValidator) = initValidator :=
  c10_frame.1 initValidator [("name", Value.str "n")] "name" false initValidator rfl
